import Mathlib

/-!
Verification development for the http2-connect-proxy repository.

The program accepts plain TCP connections and tunnels each one through an
HTTP/2 CONNECT stream.  Per accepted connection, `handleConnection` creates a
pipe `(pr, pw)`, starts two goroutines — `copyProxy` (sends the CONNECT
request with `pr` as body and copies the response body to the client) and
`copyClient` (peeks the first client byte, then copies a PROXY-protocol
header followed by the client bytes into `pw`) — and waits on a select over a
completion channel `done` (capacity 2) and a failure channel `doneError`
(capacity 1); on failure it sets linger 0 (reset-on-close) before closing.

The embedding below models bytes as `Nat`, byte streams as lists of read
chunks (`List (List Nat)`, each element the result of one successful `Read`
call), Go errors as the inductive `GoErr`, and the environment's behaviour
(dial results, response, how many bytes a sink accepts before it is closed)
as explicit parameters.
-/

/-- Go error values relevant to this program.  `wrapped e` models an error
whose `errors.Unwrap` yields `e`; for every other constructor
`errors.Unwrap` yields nil.  End-of-stream is not an error value here:
stream terminators are `Option GoErr` with `none` standing for `io.EOF`
(which `io.Copy` treats as success). -/
inductive GoErr : Type
  | h2StreamError
  | h2ConnectionError
  | h2GoAwayError
  | errClosedPipe
  | timedOut
  | other
  | wrapped (inner : GoErr)
deriving DecidableEq, Repr

/-- `errors.Unwrap`: non-nil only for a wrapping error. -/
def errorsUnwrap : GoErr → Option GoErr
  | .wrapped e => some e
  | _ => none

/-- Signals a copy direction can send to `handleConnection`:
`done` on the `done` channel, `doneError` on the `doneError` channel. -/
inductive Sig : Type
  | done
  | doneError
deriving DecidableEq, Repr

/-- Capacity of the `done` channel (`make(chan bool, 2)` in
`handleConnection`). -/
def doneChanCap : Nat := 2

/-- Capacity of the `doneError` channel (`make(chan bool, 1)` in
`handleConnection`). -/
def doneErrorChanCap : Nat := 1

/-- Result of one `io.Copy(dst, io.TeeReader(src, counter))` run.
`logged` records the byte count passed to the `WriteCounter` at each read;
`readBytes` the bytes actually read from `src`; `written` the bytes the
destination accepted; `copyErr` the error `io.Copy` returns (`none` for a
clean EOF). -/
structure TeeCopyRes : Type where
  logged : List Nat
  readBytes : List Nat
  written : List Nat
  copyErr : Option GoErr
deriving DecidableEq, Repr

/-- `io.Copy(dst, io.TeeReader(src, counter))` where `src` delivers the
chunks of `chunks` (one per `Read`) and then terminates with `term`
(`none` = `io.EOF`), and `dst` accepts `cap` more bytes before its write
fails (`none` = unbounded, i.e. the destination is never closed).
`io.TeeReader` writes each chunk to the counter at read time, before the
destination write, so a chunk whose destination write fails is still
counted.  On a failed write `io.Copy` stops and returns the write error. -/
def teeCopy : List (List Nat) → Option GoErr → Option Nat → TeeCopyRes
  | [], term, _ => ⟨[], [], [], term⟩
  | c :: rest, term, none =>
    let r := teeCopy rest term none
    ⟨c.length :: r.logged, c ++ r.readBytes, c ++ r.written, r.copyErr⟩
  | c :: rest, term, some k =>
    if c.length ≤ k then
      let r := teeCopy rest term (some (k - c.length))
      ⟨c.length :: r.logged, c ++ r.readBytes, c ++ r.written, r.copyErr⟩
    else
      ⟨[c.length], c, c.take k, some GoErr.errClosedPipe⟩

/-- The CONNECT response as far as the program inspects it: the status code
and the response body stream (read chunks plus terminator, `none` = EOF). -/
structure Response : Type where
  statusCode : Nat
  bodyChunks : List (List Nat)
  bodyTerm : Option GoErr
deriving DecidableEq, Repr

/-- Observable effects of one `copyProxy` run (the upstream→client
direction): counter log entries, bytes read from the response body, bytes
the client connection accepted, and the signals sent (in order). -/
structure CopyProxyEff : Type where
  logged : List Nat
  bodyBytesRead : List Nat
  connBytes : List Nat
  signals : List Sig
deriving DecidableEq, Repr

/-- `copyProxy` from the source: send the CONNECT request; on a round-trip
error send on `doneError` and return; on a non-200 status send on
`doneError` and return; otherwise copy the response body (teed through a
`WriteCounter`) to the client connection, sending on `doneError` if the
copy fails and on `done` if it ends cleanly.  `rt` is the result of
`tr.RoundTrip(req)`; `connCap` is how many bytes the client connection
accepts before a write on it fails (`none` = all writes succeed). -/
def copyProxy (rt : Except GoErr Response) (connCap : Option Nat) : CopyProxyEff :=
  match rt with
  | .error _ => ⟨[], [], [], [Sig.doneError]⟩
  | .ok res =>
    if res.statusCode ≠ 200 then ⟨[], [], [], [Sig.doneError]⟩
    else
      let r := teeCopy res.bodyChunks res.bodyTerm connCap
      match r.copyErr with
      | some _ => ⟨r.logged, r.readBytes, r.written, [Sig.doneError]⟩
      | none => ⟨r.logged, r.readBytes, r.written, [Sig.done]⟩

/-- ASCII bytes of a string. -/
def strBytes (s : String) : List Nat :=
  s.data.map Char.toNat

/-- The PROXY protocol v1 line `copyClient` builds: empty unless the local
egress IP was resolved and the client's remote port is non-zero, mirroring
`if localIP != nil && remotePort != 0` in the source. -/
def proxyHeaderLine (localIP : Option String) (remotePort : Nat) : String :=
  match localIP with
  | some ip =>
    if remotePort ≠ 0 then
      "PROXY TCP4 " ++ ip ++ " 127.0.0.1 " ++ toString remotePort ++ " 3306\r\n"
    else ""
  | none => ""

/-- Observable effects of one `copyClient` run (the client→upstream
direction): counter log entries, bytes read from the client connection,
bytes written into the pipe, whether this function closes the pipe's write
end, and the signals sent. -/
structure CopyClientEff : Type where
  logged : List Nat
  readBytes : List Nat
  pipeBytes : List Nat
  closesPW : Bool
  signals : List Sig
deriving DecidableEq, Repr

/-- `copyClient` from the source: tee the client connection through a
`WriteCounter`, wrap it in a `bufio.Reader`, build the (possibly empty)
PROXY header, block on `r.Peek(1)` until the client has sent at least one
byte (returning immediately on EOF/error with nothing written), then
`io.Copy(pw, io.MultiReader(strings.NewReader(header), r))`.  The function
never calls `pw.Close()`; its only signal is the deferred `done <- true`.
`chunks` are the client connection's successful reads (the first chunk is
pulled into the bufio buffer by `Peek`), `term` its terminator, `cap` how
many bytes the pipe accepts before a write on it fails (`none` =
unbounded).  The header bytes come from `strings.NewReader`, not from the
teed client connection, so they are neither counted nor part of
`readBytes`. -/
def copyClient (localIP : Option String) (remotePort : Nat)
    (chunks : List (List Nat)) (term : Option GoErr) (cap : Option Nat) :
    CopyClientEff :=
  match chunks with
  | [] => ⟨[], [], [], false, [Sig.done]⟩
  | c1 :: rest =>
    let hdr := strBytes (proxyHeaderLine localIP remotePort)
    match cap with
    | none =>
      let r := teeCopy rest term none
      ⟨c1.length :: r.logged, c1 ++ r.readBytes, hdr ++ c1 ++ r.written, false, [Sig.done]⟩
    | some k =>
      if hdr.length ≤ k then
        if c1.length ≤ k - hdr.length then
          let r := teeCopy rest term (some (k - hdr.length - c1.length))
          ⟨c1.length :: r.logged, c1 ++ r.readBytes, hdr ++ c1 ++ r.written, false, [Sig.done]⟩
        else
          ⟨[c1.length], c1, hdr ++ c1.take (k - hdr.length), false, [Sig.done]⟩
      else
        ⟨[c1.length], c1, hdr.take k, false, [Sig.done]⟩

/-- What `handleConnection` does after its select fires on signal `s`:
`SetLinger(0)` (reset-on-close) exactly when the signal came on the
`doneError` channel, then `conn.Close()` and `pw.Close()` on every path. -/
structure Teardown : Type where
  linger0 : Bool
  connClosed : Bool
  pwClosed : Bool
deriving DecidableEq, Repr

/-- The teardown `handleConnection` performs for a given observed signal. -/
def handleConnectionTeardown : Sig → Teardown
  | .done => ⟨false, true, true⟩
  | .doneError => ⟨true, true, true⟩

/-- The select in `handleConnection` observes the first signal that
arrives. -/
def observeFirst (order : List Sig) : Option Sig :=
  order.head?

/-- Teardown of a session as a function of the arrival order of the
signals: the select consumes the first arrival and tears down. -/
def sessionTeardown (order : List Sig) : Option Teardown :=
  (observeFirst order).map handleConnectionTeardown

/-- Result of `net.Dial("udp", host)`: either a connection whose
`LocalAddr()` may or may not be a `*net.UDPAddr` (modelled as
`Option (ip, port)`), or an error, in which case the returned connection
interface is nil. -/
inductive DialResult : Type
  | ok (localAddr : Option (String × Nat))
  | err (e : GoErr)
deriving DecidableEq, Repr

/-- Outcome of running a Go function that may panic. -/
inductive GoOutcome (α : Type) : Type
  | ret (a : α)
  | panicked
deriving DecidableEq, Repr

/-- `getLocalIP` from the source:

```
conn, err := net.Dial("udp", host)
defer conn.Close()
if err != nil { return nil }
if localAddr, ok := conn.LocalAddr().(*net.UDPAddr); ok { return localAddr.IP }
return nil
```

The `defer conn.Close()` is registered before the error check, so when the
dial fails the deferred `Close` runs on a nil connection interface and the
function panics (nil pointer dereference) instead of returning nil. -/
def getLocalIP (d : DialResult) : GoOutcome (Option String) :=
  match d with
  | .err _ => .panicked
  | .ok la =>
    match la with
    | some (ip, _) => .ret (some ip)
    | none => .ret none

/-- `getRemotePort` from the source: the port of the client's remote
address when it is a `*net.TCPAddr` (modelled as `some (ip, port)`),
otherwise 0. -/
def getRemotePort (remoteAddr : Option (String × Nat)) : Nat :=
  match remoteAddr with
  | some (_, port) => port
  | none => 0

/-- `copyClient` including its call to `getLocalIP` (line 129 of the
source, before `Peek`): if `getLocalIP` panics the whole goroutine — and
with it the process — panics before anything is read or written. -/
def copyClientRun (d : DialResult) (remotePort : Nat)
    (chunks : List (List Nat)) (term : Option GoErr) (cap : Option Nat) :
    GoOutcome CopyClientEff :=
  match getLocalIP d with
  | .panicked => .panicked
  | .ret localIP => .ret (copyClient localIP remotePort chunks term cap)

/-- The error classifier of `handleConnection` in main.go (the upstream
copy's error handling):

```
if err := errors.Unwrap(err); err != nil {
    switch err.(type) {
    case http2.ConnectionError:
    case http2.GoAwayError:
    case http2.StreamError:
        reset = true
    }
}
```

Go switch cases do not fall through: the `ConnectionError` and
`GoAwayError` cases have empty bodies, so only an unwrapped
`StreamError` sets the reset flag.  An error whose `errors.Unwrap` is nil
skips the switch entirely. -/
def handleConnectionResetOnCopyError (err : GoErr) : Bool :=
  match errorsUnwrap err with
  | none => false
  | some e =>
    match e with
    | .h2ConnectionError => false
    | .h2GoAwayError => false
    | .h2StreamError => true
    | _ => false

/-- The lines `debugLog.Printf` emits for one value `n`: one line when the
debug sink records (`-debug` given), none when it discards. -/
def debugLogPrintf (debug : Bool) (n : Nat) : List Nat :=
  if debug then [n] else []

/-- `WriteCounter.Write` from the source: `n := len(p);
debugLog.Printf(wc.Message, n); return n, nil`.  First component is the
Go return value `(n, err)`; second the log lines emitted. -/
def writeCounterWrite (debug : Bool) (p : List Nat) :
    (Nat × Option GoErr) × List Nat :=
  ((p.length, none), debugLogPrintf debug p.length)

/-!  Event-level model of one session.  Each of the three concurrent
tasks (`copyProxy`, `copyClient`, `handleConnection`) performs a fixed
sequence of events; a session execution is an interleaving of the three
sequences that respects channel semantics (a receive needs a prior
unmatched send).  This is a superset of the real schedules: anything
proved for all interleavings holds for the program, and counterexample
interleavings are chosen so that they are clearly schedulable. -/

/-- Events of one session. -/
inductive Ev : Type
  | rtReturn      -- `tr.RoundTrip` returned (response headers arrived, or error)
  | statusChecked -- `res.StatusCode != 200` evaluated
  | connWrite     -- copyProxy wrote a payload byte to the client connection
  | peekOk        -- copyClient's `Peek(1)` succeeded
  | pipeWrite     -- copyClient wrote a byte into the pipe
  | sendDone      -- a send on the `done` channel
  | sendErr       -- a send on the `doneError` channel
  | recvDone      -- handleConnection received from `done`
  | recvErr       -- handleConnection received from `doneError`
  | setLinger     -- `conn.SetLinger(0)`
  | closeConn     -- `conn.Close()`
  | closePW       -- `pw.Close()`
  | cpRet         -- copyProxy returned
  | ccRet         -- copyClient returned
  | hRet          -- handleConnection returned
deriving DecidableEq, Repr

/-- Event sequence of one `copyProxy` run: the round trip returns, then
(unless it errored) the status is checked, then the body bytes are written
to the client connection, then the signal is sent, then the goroutine
returns. -/
def copyProxyTrace (rt : Except GoErr Response) (connCap : Option Nat) : List Ev :=
  match rt with
  | .error _ => [Ev.rtReturn, Ev.sendErr, Ev.cpRet]
  | .ok res =>
    if res.statusCode ≠ 200 then
      [Ev.rtReturn, Ev.statusChecked, Ev.sendErr, Ev.cpRet]
    else
      let r := teeCopy res.bodyChunks res.bodyTerm connCap
      [Ev.rtReturn, Ev.statusChecked] ++ r.written.map (fun _ => Ev.connWrite) ++
        (match r.copyErr with
          | some _ => [Ev.sendErr]
          | none => [Ev.sendDone]) ++ [Ev.cpRet]

/-- Event sequence of one `copyClient` run: if the client yields no byte,
`Peek` fails and the goroutine just signals and returns; otherwise the
bytes written into the pipe (header first) follow the successful peek. -/
def copyClientTrace (localIP : Option String) (remotePort : Nat)
    (chunks : List (List Nat)) (term : Option GoErr) (cap : Option Nat) : List Ev :=
  match chunks with
  | [] => [Ev.sendDone, Ev.ccRet]
  | _ :: _ =>
    Ev.peekOk ::
      ((copyClient localIP remotePort chunks term cap).pipeBytes.map
        (fun _ => Ev.pipeWrite)) ++ [Ev.sendDone, Ev.ccRet]

/-- Event sequence of `handleConnection` after spawning the goroutines,
depending on which signal its select receives. -/
def handleConnectionTrace : Sig → List Ev
  | .done => [Ev.recvDone, Ev.closeConn, Ev.closePW, Ev.hRet]
  | .doneError => [Ev.recvErr, Ev.setLinger, Ev.closeConn, Ev.closePW, Ev.hRet]

/-- Interleaving of three sequences: `Shuffle3 ps cs hs t` holds when `t`
is a merge of `ps`, `cs` and `hs` preserving the order within each. -/
inductive Shuffle3 {α : Type} : List α → List α → List α → List α → Prop
  | nil : Shuffle3 [] [] [] []
  | pick1 {a : α} {ps cs hs t : List α} :
      Shuffle3 ps cs hs t → Shuffle3 (a :: ps) cs hs (a :: t)
  | pick2 {a : α} {ps cs hs t : List α} :
      Shuffle3 ps cs hs t → Shuffle3 ps (a :: cs) hs (a :: t)
  | pick3 {a : α} {ps cs hs t : List α} :
      Shuffle3 ps cs hs t → Shuffle3 ps cs (a :: hs) (a :: t)

/-- Is `e` the head of the list? -/
def headIs {α : Type} [DecidableEq α] (e : α) : List α → Bool
  | [] => false
  | a :: _ => a = e

/-- Executable check that `t` interleaves `ps`, `cs`, `hs`. -/
def isShuffle3 {α : Type} [DecidableEq α] :
    List α → List α → List α → List α → Bool
  | ps, cs, hs, [] => ps.isEmpty && cs.isEmpty && hs.isEmpty
  | ps, cs, hs, e :: t =>
    (headIs e ps && isShuffle3 ps.tail cs hs t) ||
    (headIs e cs && isShuffle3 ps cs.tail hs t) ||
    (headIs e hs && isShuffle3 ps cs hs.tail t)

/-- Channel semantics: walking the trace with counters of pending sends,
every receive must find a pending send on its channel. -/
def chanOK : Nat → Nat → List Ev → Bool
  | _, _, [] => true
  | d, e, Ev.sendDone :: rest => chanOK (d + 1) e rest
  | d, e, Ev.sendErr :: rest => chanOK d (e + 1) rest
  | d, e, Ev.recvDone :: rest => decide (0 < d) && chanOK (d - 1) e rest
  | d, e, Ev.recvErr :: rest => decide (0 < e) && chanOK d (e - 1) rest
  | d, e, _ :: rest => chanOK d e rest

/-- A valid session trace for the given environment: an interleaving of
the three task traces (for the signal `s` the select ends up receiving)
that respects channel semantics. -/
def validSessionTrace (rt : Except GoErr Response) (connCap : Option Nat)
    (localIP : Option String) (remotePort : Nat)
    (chunks : List (List Nat)) (term : Option GoErr) (cap : Option Nat)
    (s : Sig) (t : List Ev) : Prop :=
  Shuffle3 (copyProxyTrace rt connCap)
    (copyClientTrace localIP remotePort chunks term cap)
    (handleConnectionTrace s) t ∧ chanOK 0 0 t = true

/-- Count of occurrences of `x` before the first occurrence of the marker
`m` in `l`. -/
def cntBefore {α : Type} [DecidableEq α] (m x : α) (l : List α) : Nat :=
  (l.takeWhile (fun e => e ≠ m)).count x

/-- Does any payload byte move before the status check?  True when a
`pipeWrite` or `connWrite` event precedes the first `statusChecked`. -/
def payloadBeforeStatusCheck (t : List Ev) : Bool :=
  (t.takeWhile (fun e => e ≠ Ev.statusChecked)).any
    (fun e => e == Ev.pipeWrite || e == Ev.connWrite)

/-- Decides whether the round trip failed or was rejected: `RoundTrip`
returned an error, or the response status is not 200. -/
def rtRejected (rt : Except GoErr Response) : Bool :=
  match rt with
  | .error _ => true
  | .ok res => res.statusCode != 200

/-! ### Helper lemmas -/

theorem isShuffle3_sound {α : Type} [DecidableEq α] :
    ∀ (t ps cs hs : List α), isShuffle3 ps cs hs t = true → Shuffle3 ps cs hs t := by
  intro t
  induction t with
  | nil =>
    intro ps cs hs h
    simp only [isShuffle3, Bool.and_eq_true, List.isEmpty_iff] at h
    obtain ⟨⟨h1, h2⟩, h3⟩ := h
    subst h1; subst h2; subst h3
    exact Shuffle3.nil
  | cons e t ih =>
    intro ps cs hs h
    simp only [isShuffle3, Bool.or_eq_true, Bool.and_eq_true] at h
    rcases h with (⟨hh, hrec⟩ | ⟨hh, hrec⟩) | ⟨hh, hrec⟩
    · cases ps with
      | nil => simp [headIs] at hh
      | cons a ps2 =>
        simp only [headIs, decide_eq_true_eq] at hh
        subst hh
        exact Shuffle3.pick1 (ih _ _ _ hrec)
    · cases cs with
      | nil => simp [headIs] at hh
      | cons a cs2 =>
        simp only [headIs, decide_eq_true_eq] at hh
        subst hh
        exact Shuffle3.pick2 (ih _ _ _ hrec)
    · cases hs with
      | nil => simp [headIs] at hh
      | cons a hs2 =>
        simp only [headIs, decide_eq_true_eq] at hh
        subst hh
        exact Shuffle3.pick3 (ih _ _ _ hrec)

theorem shuffle3_count {α : Type} [DecidableEq α] {ps cs hs t : List α}
    (h : Shuffle3 ps cs hs t) (x : α) :
    t.count x = ps.count x + cs.count x + hs.count x := by
  induction h with
  | nil => simp
  | @pick1 a ps cs hs t h ih =>
    by_cases hax : a = x <;> simp [List.count_cons, hax, ih] <;> omega
  | @pick2 a ps cs hs t h ih =>
    by_cases hax : a = x <;> simp [List.count_cons, hax, ih] <;> omega
  | @pick3 a ps cs hs t h ih =>
    by_cases hax : a = x <;> simp [List.count_cons, hax, ih] <;> omega

theorem shuffle3_length {α : Type} [DecidableEq α] {ps cs hs t : List α}
    (h : Shuffle3 ps cs hs t) :
    t.length = ps.length + cs.length + hs.length := by
  induction h with
  | nil => simp
  | pick1 h ih => simp [ih]; omega
  | pick2 h ih => simp [ih]; omega
  | pick3 h ih => simp [ih]; omega

theorem cntBefore_cons {α : Type} [DecidableEq α] (m x a : α) (l : List α) :
    cntBefore m x (a :: l) =
      if a = m then 0 else (if a = x then 1 else 0) + cntBefore m x l := by
  by_cases ham : a = m
  · simp [cntBefore, List.takeWhile_cons, ham]
  · by_cases hax : a = x
    · subst hax
      simp [cntBefore, List.takeWhile_cons, ham, List.count_cons]
      omega
    · simp [cntBefore, List.takeWhile_cons, ham, hax, List.count_cons]

theorem shuffle3_cntBefore {α : Type} [DecidableEq α] (m x : α) {ps cs hs t : List α}
    (h : Shuffle3 ps cs hs t) :
    cntBefore m x t ≤ cntBefore m x ps + cntBefore m x cs + cntBefore m x hs := by
  induction h with
  | nil => simp [cntBefore]
  | @pick1 a ps cs hs t h ih =>
    rw [cntBefore_cons m x a t, cntBefore_cons m x a ps]
    by_cases ham : a = m
    · simp [ham]
    · simp only [if_neg ham]
      omega
  | @pick2 a ps cs hs t h ih =>
    rw [cntBefore_cons m x a t, cntBefore_cons m x a cs]
    by_cases ham : a = m
    · simp [ham]
    · simp only [if_neg ham]
      omega
  | @pick3 a ps cs hs t h ih =>
    rw [cntBefore_cons m x a t, cntBefore_cons m x a hs]
    by_cases ham : a = m
    · simp [ham]
    · simp only [if_neg ham]
      omega

theorem cntBefore_le_count {α : Type} [DecidableEq α] (m x : α) (l : List α) :
    cntBefore m x l ≤ l.count x :=
  (List.takeWhile_sublist _).count_le x

theorem cntBefore_eq_zero_of_not_mem {α : Type} [DecidableEq α] {m x : α}
    {l : List α} (h : x ∉ l) : cntBefore m x l = 0 :=
  Nat.le_zero.mp (le_trans (cntBefore_le_count m x l) (Nat.le_of_eq (List.count_eq_zero.mpr h)))

theorem teeCopy_logged_sum (chunks : List (List Nat)) (term : Option GoErr) :
    ∀ cap, (teeCopy chunks term cap).logged.sum = (teeCopy chunks term cap).readBytes.length := by
  induction chunks with
  | nil => intro cap; rfl
  | cons c rest ih =>
    intro cap
    cases cap with
    | none => simp [teeCopy, List.sum_cons, List.length_append, ih]
    | some k =>
      by_cases h : c.length ≤ k
      · simp [teeCopy, h, List.sum_cons, List.length_append, ih]
      · simp [teeCopy, h]

theorem teeCopy_written_le (chunks : List (List Nat)) (term : Option GoErr) :
    ∀ cap, (teeCopy chunks term cap).written.length ≤ (teeCopy chunks term cap).readBytes.length := by
  induction chunks with
  | nil => intro cap; exact Nat.le_refl _
  | cons c rest ih =>
    intro cap
    cases cap with
    | none =>
      simp only [teeCopy, List.length_append]
      exact Nat.add_le_add_left (ih none) c.length
    | some k =>
      by_cases h : c.length ≤ k
      · simp only [teeCopy, h, if_true, List.length_append]
        exact Nat.add_le_add_left (ih _) c.length
      · simp only [teeCopy, h, if_false, List.length_take]
        exact Nat.min_le_right _ _

theorem teeCopy_none_written_eq_read (chunks : List (List Nat)) (term : Option GoErr) :
    (teeCopy chunks term none).written = (teeCopy chunks term none).readBytes := by
  induction chunks with
  | nil => rfl
  | cons c rest ih => simp [teeCopy, ih]

theorem teeCopy_none_written (chunks : List (List Nat)) (term : Option GoErr) :
    (teeCopy chunks term none).written = chunks.flatten := by
  induction chunks with
  | nil => rfl
  | cons c rest ih => simp [teeCopy, ih]

theorem teeCopy_written_ex (chunks : List (List Nat)) (term : Option GoErr) :
    ∀ cap, ∃ t2, (teeCopy chunks term cap).written ++ t2 = chunks.flatten := by
  induction chunks with
  | nil => intro cap; exact ⟨[], rfl⟩
  | cons c rest ih =>
    intro cap
    cases cap with
    | none =>
      obtain ⟨t2, ht2⟩ := ih none
      exact ⟨t2, by simp [teeCopy, List.append_assoc, ht2]⟩
    | some k =>
      by_cases h : c.length ≤ k
      · obtain ⟨t2, ht2⟩ := ih (some (k - c.length))
        exact ⟨t2, by simp [teeCopy, h, List.append_assoc, ht2]⟩
      · refine ⟨c.drop k ++ rest.flatten, ?_⟩
        simp [teeCopy, h, ← List.append_assoc, List.take_append_drop]

theorem copyClient_signals (lip : Option String) (rp : Nat)
    (chunks : List (List Nat)) (term : Option GoErr) (cap : Option Nat) :
    (copyClient lip rp chunks term cap).signals = [Sig.done] := by
  cases chunks with
  | nil => rfl
  | cons c1 rest =>
    cases cap with
    | none => rfl
    | some k =>
      by_cases h1 : (strBytes (proxyHeaderLine lip rp)).length ≤ k
      · by_cases h2 : c1.length ≤ k - (strBytes (proxyHeaderLine lip rp)).length
        · simp [copyClient, h1, h2]
        · simp [copyClient, h1, h2]
      · simp [copyClient, h1]

theorem copyClient_closesPW (lip : Option String) (rp : Nat)
    (chunks : List (List Nat)) (term : Option GoErr) (cap : Option Nat) :
    (copyClient lip rp chunks term cap).closesPW = false := by
  cases chunks with
  | nil => rfl
  | cons c1 rest =>
    cases cap with
    | none => rfl
    | some k =>
      by_cases h1 : (strBytes (proxyHeaderLine lip rp)).length ≤ k
      · by_cases h2 : c1.length ≤ k - (strBytes (proxyHeaderLine lip rp)).length
        · simp [copyClient, h1, h2]
        · simp [copyClient, h1, h2]
      · simp [copyClient, h1]

theorem copyClient_logged_sum (lip : Option String) (rp : Nat)
    (chunks : List (List Nat)) (term : Option GoErr) (cap : Option Nat) :
    (copyClient lip rp chunks term cap).logged.sum =
      (copyClient lip rp chunks term cap).readBytes.length := by
  cases chunks with
  | nil => rfl
  | cons c1 rest =>
    cases cap with
    | none => simp [copyClient, List.sum_cons, List.length_append, teeCopy_logged_sum]
    | some k =>
      by_cases h1 : (strBytes (proxyHeaderLine lip rp)).length ≤ k
      · by_cases h2 : c1.length ≤ k - (strBytes (proxyHeaderLine lip rp)).length
        · simp [copyClient, h1, h2, List.sum_cons, List.length_append, teeCopy_logged_sum]
        · simp [copyClient, h1, h2]
      · simp [copyClient, h1]

theorem copyClient_pipe_ex (lip : Option String) (rp : Nat)
    (chunks : List (List Nat)) (term : Option GoErr) (cap : Option Nat) :
    ∃ t2, (copyClient lip rp chunks term cap).pipeBytes ++ t2 =
      strBytes (proxyHeaderLine lip rp) ++ chunks.flatten := by
  cases chunks with
  | nil => exact ⟨strBytes (proxyHeaderLine lip rp), by simp [copyClient]⟩
  | cons c1 rest =>
    cases cap with
    | none =>
      obtain ⟨t2, ht2⟩ := teeCopy_written_ex rest term none
      refine ⟨t2, ?_⟩
      simp [copyClient, List.flatten_cons, List.append_assoc, ht2]
    | some k =>
      by_cases h1 : (strBytes (proxyHeaderLine lip rp)).length ≤ k
      · by_cases h2 : c1.length ≤ k - (strBytes (proxyHeaderLine lip rp)).length
        · obtain ⟨t2, ht2⟩ :=
            teeCopy_written_ex rest term
              (some (k - (strBytes (proxyHeaderLine lip rp)).length - c1.length))
          refine ⟨t2, ?_⟩
          simp [copyClient, h1, h2, List.flatten_cons, List.append_assoc, ht2]
        · refine ⟨c1.drop (k - (strBytes (proxyHeaderLine lip rp)).length) ++ rest.flatten, ?_⟩
          simp only [copyClient, h1, h2, if_true, if_false, List.flatten_cons]
          rw [List.append_assoc, ← List.append_assoc (c1.take _), List.take_append_drop]
      · refine ⟨(strBytes (proxyHeaderLine lip rp)).drop k ++ c1 ++ rest.flatten, ?_⟩
        simp only [copyClient, h1, if_false, List.flatten_cons]
        rw [← List.append_assoc, ← List.append_assoc, List.take_append_drop,
          List.append_assoc]

theorem copyClient_pipe_none (lip : Option String) (rp : Nat)
    (c1 : List Nat) (rest : List (List Nat)) (term : Option GoErr) :
    (copyClient lip rp (c1 :: rest) term none).pipeBytes =
      strBytes (proxyHeaderLine lip rp) ++ (c1 :: rest).flatten := by
  simp [copyClient, teeCopy_none_written, List.flatten_cons, List.append_assoc]

theorem copyProxy_signals_cases (rt : Except GoErr Response) (cap : Option Nat) :
    (copyProxy rt cap).signals = [Sig.done] ∨ (copyProxy rt cap).signals = [Sig.doneError] := by
  cases rt with
  | error e => exact Or.inr rfl
  | ok res =>
    by_cases h : res.statusCode ≠ 200
    · simp [copyProxy, h]
    · rcases hce : (teeCopy res.bodyChunks res.bodyTerm cap).copyErr with _ | e2
      · simp [copyProxy, h, hce]
      · simp [copyProxy, h, hce]

theorem copyProxy_rejected_signals (rt : Except GoErr Response) (cap : Option Nat)
    (h : rtRejected rt = true) :
    (copyProxy rt cap).signals = [Sig.doneError] := by
  cases rt with
  | error e => rfl
  | ok res =>
    have h2 : res.statusCode ≠ 200 := by simpa [rtRejected] using h
    simp [copyProxy, h2]

theorem copyProxy_logged_sum (rt : Except GoErr Response) (cap : Option Nat) :
    (copyProxy rt cap).logged.sum = (copyProxy rt cap).bodyBytesRead.length := by
  cases rt with
  | error e => rfl
  | ok res =>
    by_cases h : res.statusCode ≠ 200
    · simp [copyProxy, h]
    · rcases hce : (teeCopy res.bodyChunks res.bodyTerm cap).copyErr with _ | e2 <;>
        simp [copyProxy, h, hce, teeCopy_logged_sum]

theorem copyProxy_conn_le (rt : Except GoErr Response) (cap : Option Nat) :
    (copyProxy rt cap).connBytes.length ≤ (copyProxy rt cap).logged.sum := by
  cases rt with
  | error e => exact Nat.le_refl _
  | ok res =>
    by_cases h : res.statusCode ≠ 200
    · simp [copyProxy, h]
    · rcases hce : (teeCopy res.bodyChunks res.bodyTerm cap).copyErr with _ | e2 <;>
        simpa [copyProxy, h, hce, teeCopy_logged_sum] using teeCopy_written_le res.bodyChunks res.bodyTerm cap

theorem copyProxy_none_eq (rt : Except GoErr Response) :
    (copyProxy rt none).logged.sum = (copyProxy rt none).connBytes.length := by
  cases rt with
  | error e => rfl
  | ok res =>
    by_cases h : res.statusCode ≠ 200
    · simp [copyProxy, h]
    · rcases hce : (teeCopy res.bodyChunks res.bodyTerm none).copyErr with _ | e2 <;>
        simp [copyProxy, h, hce, teeCopy_logged_sum, teeCopy_none_written_eq_read]

theorem cntBefore_connWrite_copyProxyTrace (rt : Except GoErr Response) (cap : Option Nat) :
    cntBefore Ev.statusChecked Ev.connWrite (copyProxyTrace rt cap) = 0 := by
  cases rt with
  | error e => rfl
  | ok res =>
    by_cases h : res.statusCode ≠ 200
    · simp only [copyProxyTrace, if_pos h]
      rfl
    · simp only [copyProxyTrace, if_neg h, List.cons_append, List.nil_append]
      simp [cntBefore_cons]

theorem hRet_not_mem_copyProxyTrace (rt : Except GoErr Response) (cap : Option Nat) :
    Ev.hRet ∉ copyProxyTrace rt cap := by
  cases rt with
  | error e =>
    show Ev.hRet ∉ [Ev.rtReturn, Ev.sendErr, Ev.cpRet]
    decide
  | ok res =>
    by_cases h : res.statusCode ≠ 200
    · simp only [copyProxyTrace, if_pos h]
      decide
    · simp only [copyProxyTrace, if_neg h]
      rcases hce : (teeCopy res.bodyChunks res.bodyTerm cap).copyErr with _ | e2 <;>
        simp [List.mem_append, List.mem_map]

theorem hRet_not_mem_copyClientTrace (lip : Option String) (rp : Nat)
    (chunks : List (List Nat)) (term : Option GoErr) (cap : Option Nat) :
    Ev.hRet ∉ copyClientTrace lip rp chunks term cap := by
  cases chunks with
  | nil =>
    show Ev.hRet ∉ [Ev.sendDone, Ev.ccRet]
    decide
  | cons c1 rest =>
    simp [copyClientTrace, List.mem_append, List.mem_map]

theorem connWrite_not_mem_copyClientTrace (lip : Option String) (rp : Nat)
    (chunks : List (List Nat)) (term : Option GoErr) (cap : Option Nat) :
    Ev.connWrite ∉ copyClientTrace lip rp chunks term cap := by
  cases chunks with
  | nil =>
    show Ev.connWrite ∉ [Ev.sendDone, Ev.ccRet]
    decide
  | cons c1 rest =>
    simp [copyClientTrace, List.mem_append, List.mem_map]

theorem cntBefore_connWrite_handleConnectionTrace (s : Sig) :
    cntBefore Ev.statusChecked Ev.connWrite (handleConnectionTrace s) = 0 := by
  cases s <;> rfl

theorem cntBefore_closeConn_hRet_handleConnectionTrace (s : Sig) :
    cntBefore Ev.closeConn Ev.hRet (handleConnectionTrace s) = 0 := by
  cases s <;> rfl

theorem cntBefore_closePW_hRet_handleConnectionTrace (s : Sig) :
    cntBefore Ev.closePW Ev.hRet (handleConnectionTrace s) = 0 := by
  cases s <;> rfl

theorem closeConn_mem_handleConnectionTrace (s : Sig) :
    Ev.closeConn ∈ handleConnectionTrace s := by
  cases s <;> decide

theorem closePW_mem_handleConnectionTrace (s : Sig) :
    Ev.closePW ∈ handleConnectionTrace s := by
  cases s <;> decide

/-! ### Claim theorems -/

/-- C1 counterexample: the CONNECT round trip returns status 503 (a
rejected tunnel) and `copyProxy` duly signals on the failure channel; but
with a client that disconnects without sending a byte, `copyClient`'s
completion signal — which does not depend on the round trip — can arrive
first, and the select in `handleConnection` then takes the `done` branch:
teardown is a graceful close and `SetLinger(0)` is never called,
contradicting "the session proceeds to teardown with verdict ForceReset
... regardless of whether any payload byte was transferred". -/
theorem c1_counterexample_completion_wins_race :
    rtRejected (Except.ok ({ statusCode := 503, bodyChunks := [], bodyTerm := none } : Response)) = true ∧
    (copyClient none 0 [] none none).signals = [Sig.done] ∧
    (copyProxy (Except.ok { statusCode := 503, bodyChunks := [], bodyTerm := none }) none).signals = [Sig.doneError] ∧
    Shuffle3 (copyClient none 0 [] none none).signals
      (copyProxy (Except.ok { statusCode := 503, bodyChunks := [], bodyTerm := none }) none).signals
      ([] : List Sig) [Sig.done, Sig.doneError] ∧
    (sessionTeardown [Sig.done, Sig.doneError]).map Teardown.linger0 = some false := by
  refine ⟨rfl, rfl, rfl, ?_, rfl⟩
  exact isShuffle3_sound _ _ _ _ (by decide)

/-- C1 amended: whenever the CONNECT round trip fails or returns a status
other than 200, `copyProxy` sends on the failure channel without having
written any payload byte to the client; and whenever the failure signal is
the first one the select observes, teardown sets linger 0 (reset-on-close)
and closes the connection and the pipe's write end.  The reset is
guaranteed only when the failure signal wins the race: the client
direction's completion signal can arrive first — for instance when the
client disconnects without sending a byte, or reaches EOF after its bytes
were consumed into the request body while the response was still pending —
and teardown is then graceful. -/
theorem c1_connect_failure_force_reset (rt : Except GoErr Response)
    (cap : Option Nat) (rest : List Sig) (h : rtRejected rt = true) :
    (copyProxy rt cap).signals = [Sig.doneError] ∧
    (copyProxy rt cap).connBytes = [] ∧
    sessionTeardown (Sig.doneError :: rest) =
      some { linger0 := true, connClosed := true, pwClosed := true } := by
  refine ⟨copyProxy_rejected_signals rt cap h, ?_, rfl⟩
  cases rt with
  | error e => rfl
  | ok res =>
    have h2 : res.statusCode ≠ 200 := by simpa [rtRejected] using h
    simp [copyProxy, h2]

/-- C1 witness: the amended theorem applied to a concrete 503 response
whose failure signal is observed first. -/
theorem c1_connect_failure_force_reset_witness :
    (copyProxy (Except.ok { statusCode := 503, bodyChunks := [[1]], bodyTerm := none }) none).signals = [Sig.doneError] ∧
    (copyProxy (Except.ok { statusCode := 503, bodyChunks := [[1]], bodyTerm := none }) none).connBytes = [] ∧
    sessionTeardown [Sig.doneError] =
      some { linger0 := true, connClosed := true, pwClosed := true } :=
  c1_connect_failure_force_reset
    (Except.ok { statusCode := 503, bodyChunks := [[1]], bodyTerm := none }) none [] (by decide)

/-- C2 (code bug): the error classifier of the upstream→client direction
(the `switch err.(type)` on the result of one `errors.Unwrap`) is meant to
return ForceReset for the whole protocol-fatal set {StreamError,
ConnectionError, GoAwayError}, but the `ConnectionError` and `GoAwayError`
switch cases have empty bodies and Go cases do not fall through, so only a
wrapped `StreamError` sets the reset flag; a wrapped connection-level or
GOAWAY error — and likewise a bare, unwrapped StreamError, since the
switch is skipped when `errors.Unwrap` is nil — leaves the flag false and
the connection is closed gracefully. -/
theorem c2_classifier_switch_no_fallthrough :
    handleConnectionResetOnCopyError (GoErr.wrapped GoErr.h2ConnectionError) = false ∧
    handleConnectionResetOnCopyError (GoErr.wrapped GoErr.h2GoAwayError) = false ∧
    handleConnectionResetOnCopyError (GoErr.wrapped GoErr.h2StreamError) = true ∧
    handleConnectionResetOnCopyError GoErr.h2StreamError = false := by
  decide

/-- C3 counterexample: the client sends bytes 65 then 66, but the pipe is
closed after accepting the header plus one byte (teardown closed `pw`
while this direction was still copying): the direction has read
`[65, 66]` from the client yet wrote only header ++ `[65]` into the pipe,
so the pipe bytes are not the header followed by exactly the bytes read
from the client. -/
theorem c3_counterexample_pipe_closed_early :
    (copyClient (some "10.0.0.1") 1234 [[65], [66]] none
        (some ((strBytes (proxyHeaderLine (some "10.0.0.1") 1234)).length + 1))).readBytes = [65, 66] ∧
    (copyClient (some "10.0.0.1") 1234 [[65], [66]] none
        (some ((strBytes (proxyHeaderLine (some "10.0.0.1") 1234)).length + 1))).pipeBytes ≠
      strBytes (proxyHeaderLine (some "10.0.0.1") 1234) ++ [65, 66] := by
  decide

/-- C3 amended: nothing (in particular no header byte) is written to the
pipe when the client yields zero bytes before EOF or error; otherwise the
bytes written are an initial segment of the header followed by the bytes
read from the client — so the header, when emitted, precedes every client
payload byte — and they are exactly header ++ client bytes whenever the
pipe accepts all writes. -/
theorem c3_header_before_payload (lip : Option String) (rp : Nat)
    (chunks : List (List Nat)) (term : Option GoErr) (cap : Option Nat) :
    (chunks = [] → (copyClient lip rp chunks term cap).pipeBytes = []) ∧
    (∃ t2, (copyClient lip rp chunks term cap).pipeBytes ++ t2 =
      strBytes (proxyHeaderLine lip rp) ++ chunks.flatten) ∧
    (cap = none → ∀ c1 rest2, chunks = c1 :: rest2 →
      (copyClient lip rp chunks term cap).pipeBytes =
        strBytes (proxyHeaderLine lip rp) ++ chunks.flatten) := by
  refine ⟨?_, copyClient_pipe_ex lip rp chunks term cap, ?_⟩
  · rintro rfl
    rfl
  · rintro rfl c1 rest2 rfl
    exact copyClient_pipe_none lip rp c1 rest2 term

/-- C3 witness: the amended theorem at a zero-byte client (nothing
written) and at a one-byte client with an unbounded pipe (header then the
byte). -/
theorem c3_header_before_payload_witness :
    (copyClient none 7 [] none none).pipeBytes = [] ∧
    (copyClient (some "10.0.0.1") 1234 [[65]] none none).pipeBytes =
      strBytes (proxyHeaderLine (some "10.0.0.1") 1234) ++ [65] := by
  refine ⟨(c3_header_before_payload none 7 [] none none).1 rfl, ?_⟩
  have h := (c3_header_before_payload (some "10.0.0.1") 1234 [[65]] none none).2.2 rfl [65] [] rfl
  simpa using h

/-- C4 (code bug): `getLocalIP` registers `defer conn.Close()` before
checking the dial error; when the throwaway UDP dial fails, the deferred
`Close` runs on a nil connection interface and panics, crashing the
goroutine (and hence the process) instead of letting the session complete
with an empty header.  The non-panicking resolution-failure path (dial
succeeds but the local address is not a `*net.UDPAddr`) does proceed with
an empty header and forwards the payload. -/
theorem c4_getLocalIP_dial_failure_panics :
    getLocalIP (DialResult.err GoErr.other) = GoOutcome.panicked ∧
    copyClientRun (DialResult.err GoErr.other) 1234 [[65]] none none = GoOutcome.panicked ∧
    copyClientRun (DialResult.ok none) 1234 [[65]] none none =
      GoOutcome.ret (copyClient none 1234 [[65]] none none) :=
  ⟨rfl, rfl, rfl⟩

/-- C5 counterexample: the client→upstream direction terminates (client
sent one byte, then EOF) without closing the pipe's write end —
`copyClient` contains no `pw.Close()` — contradicting "it closes the write
end of the outgoing pipe". -/
theorem c5_counterexample_no_pipe_close_by_direction :
    (copyClient none 0 [[7]] none none).closesPW = false := rfl

/-- C5 amended: on every termination path the client→upstream direction
reports via the completion signal only (it never sends on the failure
channel), and it does not itself close the pipe's write end; the write end
is closed by `handleConnection`'s teardown, which closes it whichever
signal it observes. -/
theorem c5_client_direction_completion_only (lip : Option String) (rp : Nat)
    (chunks : List (List Nat)) (term : Option GoErr) (cap : Option Nat) :
    (copyClient lip rp chunks term cap).signals = [Sig.done] ∧
    (copyClient lip rp chunks term cap).closesPW = false ∧
    ∀ s : Sig, (handleConnectionTeardown s).pwClosed = true := by
  refine ⟨copyClient_signals lip rp chunks term cap,
    copyClient_closesPW lip rp chunks term cap, ?_⟩
  intro s
  cases s <;> rfl

/-- C6 counterexample: with a one-byte client payload and a 200 response
there is a valid session execution in which the client byte is written
into the pipe (`pipeWrite`) before the round trip has even returned
(`rtReturn`), hence before the status is checked: `copyClient` is started
concurrently with the CONNECT call and the transport consumes the request
body while the response is still pending.  This contradicts "no client
payload byte reaches the upstream pipe ... before response headers have
arrived and the status has been checked". -/
theorem c6_counterexample_payload_before_status :
    validSessionTrace (Except.ok { statusCode := 200, bodyChunks := [[66]], bodyTerm := none }) none
      none 0 [[65]] none none Sig.done
      [Ev.peekOk, Ev.pipeWrite, Ev.rtReturn, Ev.statusChecked, Ev.connWrite,
        Ev.sendDone, Ev.cpRet, Ev.sendDone, Ev.ccRet, Ev.recvDone, Ev.closeConn,
        Ev.closePW, Ev.hRet] ∧
    payloadBeforeStatusCheck
      [Ev.peekOk, Ev.pipeWrite, Ev.rtReturn, Ev.statusChecked, Ev.connWrite,
        Ev.sendDone, Ev.cpRet, Ev.sendDone, Ev.ccRet, Ev.recvDone, Ev.closeConn,
        Ev.closePW, Ev.hRet] = true := by
  exact ⟨⟨isShuffle3_sound _ _ _ _ (by decide), by decide⟩, by decide⟩

/-- C6 amended: the upstream→client half of the claim holds — in every
valid session execution no byte is written to the client connection
before the first `statusChecked` event, because `copyProxy` is sequential
(round trip, status check, then body copy).  The client→upstream half is
dropped: client bytes may reach the pipe before the response arrives. -/
theorem c6_no_conn_write_before_status_check
    (rt : Except GoErr Response) (pcap : Option Nat) (lip : Option String) (rp : Nat)
    (chunks : List (List Nat)) (term : Option GoErr) (ccap : Option Nat)
    (s : Sig) (t : List Ev)
    (h : validSessionTrace rt pcap lip rp chunks term ccap s t) :
    cntBefore Ev.statusChecked Ev.connWrite t = 0 := by
  have hb := shuffle3_cntBefore Ev.statusChecked Ev.connWrite h.1
  have h1 := cntBefore_connWrite_copyProxyTrace rt pcap
  have h2 := cntBefore_eq_zero_of_not_mem (m := Ev.statusChecked)
    (connWrite_not_mem_copyClientTrace lip rp chunks term ccap)
  have h3 := cntBefore_connWrite_handleConnectionTrace s
  omega

/-- C6 witness: the amended theorem applied to a concrete valid trace (a
failing round trip with a silent client, sequentially scheduled). -/
theorem c6_no_conn_write_before_status_check_witness :
    cntBefore Ev.statusChecked Ev.connWrite
      [Ev.rtReturn, Ev.sendErr, Ev.cpRet, Ev.sendDone, Ev.ccRet, Ev.recvDone,
        Ev.closeConn, Ev.closePW, Ev.hRet] = 0 := by
  apply c6_no_conn_write_before_status_check (Except.error GoErr.other) none none 0 [] none
    none Sig.done
  exact ⟨isShuffle3_sound _ _ _ _ (by decide), by decide⟩

/-- C7 counterexample: there is a valid session execution in which
`handleConnection` receives the client direction's completion signal,
closes the connection and pipe, and returns (`hRet`) while `copyProxy` is
still blocked in the round trip and returns (`cpRet`) only later: the
session entry point does not block until both copy directions have
returned, contradicting "it returns only after both copy directions have
returned". -/
theorem c7_counterexample_return_before_direction :
    validSessionTrace (Except.error GoErr.other) none none 0 [] none none Sig.done
      [Ev.sendDone, Ev.ccRet, Ev.recvDone, Ev.closeConn, Ev.closePW, Ev.hRet,
        Ev.rtReturn, Ev.sendErr, Ev.cpRet] ∧
    ([Ev.sendDone, Ev.ccRet, Ev.recvDone, Ev.closeConn, Ev.closePW, Ev.hRet,
        Ev.rtReturn, Ev.sendErr, Ev.cpRet].takeWhile (fun e => e ≠ Ev.cpRet)).count Ev.hRet = 1 := by
  exact ⟨⟨isShuffle3_sound _ _ _ _ (by decide), by decide⟩, by decide⟩

/-- C7 amended: in every valid session execution `handleConnection`
closes the client connection and the pipe's write end before it returns
(no `hRet` precedes the first `closeConn` or the first `closePW`), and its
trace contains both closes on either select branch; but it returns after
the first observed signal and does not wait for both directions. -/
theorem c7_teardown_before_return
    (rt : Except GoErr Response) (pcap : Option Nat) (lip : Option String) (rp : Nat)
    (chunks : List (List Nat)) (term : Option GoErr) (ccap : Option Nat)
    (s : Sig) (t : List Ev)
    (h : validSessionTrace rt pcap lip rp chunks term ccap s t) :
    cntBefore Ev.closeConn Ev.hRet t = 0 ∧
    cntBefore Ev.closePW Ev.hRet t = 0 ∧
    Ev.closeConn ∈ handleConnectionTrace s ∧
    Ev.closePW ∈ handleConnectionTrace s := by
  have hb1 := shuffle3_cntBefore Ev.closeConn Ev.hRet h.1
  have hb2 := shuffle3_cntBefore Ev.closePW Ev.hRet h.1
  have p1 := cntBefore_eq_zero_of_not_mem (m := Ev.closeConn)
    (hRet_not_mem_copyProxyTrace rt pcap)
  have p2 := cntBefore_eq_zero_of_not_mem (m := Ev.closePW)
    (hRet_not_mem_copyProxyTrace rt pcap)
  have q1 := cntBefore_eq_zero_of_not_mem (m := Ev.closeConn)
    (hRet_not_mem_copyClientTrace lip rp chunks term ccap)
  have q2 := cntBefore_eq_zero_of_not_mem (m := Ev.closePW)
    (hRet_not_mem_copyClientTrace lip rp chunks term ccap)
  have r1 := cntBefore_closeConn_hRet_handleConnectionTrace s
  have r2 := cntBefore_closePW_hRet_handleConnectionTrace s
  exact ⟨by omega, by omega, closeConn_mem_handleConnectionTrace s,
    closePW_mem_handleConnectionTrace s⟩

/-- C7 witness: the amended theorem applied to a concrete valid trace (a
failing round trip whose failure signal is observed, sequentially
scheduled). -/
theorem c7_teardown_before_return_witness :
    cntBefore Ev.closeConn Ev.hRet
      [Ev.rtReturn, Ev.sendErr, Ev.cpRet, Ev.sendDone, Ev.ccRet, Ev.recvErr,
        Ev.setLinger, Ev.closeConn, Ev.closePW, Ev.hRet] = 0 ∧
    cntBefore Ev.closePW Ev.hRet
      [Ev.rtReturn, Ev.sendErr, Ev.cpRet, Ev.sendDone, Ev.ccRet, Ev.recvErr,
        Ev.setLinger, Ev.closeConn, Ev.closePW, Ev.hRet] = 0 ∧
    Ev.closeConn ∈ handleConnectionTrace Sig.doneError ∧
    Ev.closePW ∈ handleConnectionTrace Sig.doneError := by
  apply c7_teardown_before_return (Except.error GoErr.other) none none 0 [] none none
    Sig.doneError
  exact ⟨isShuffle3_sound _ _ _ _ (by decide), by decide⟩

/-- C8: each direction sends exactly one signal — `copyClient` always the
completion signal, `copyProxy` exactly one of completion or failure — so
in any arrival order the completion channel carries at most 2 sends
(its capacity) and the failure channel at most 1 (its capacity): no
sending direction can block after the control logic has moved on; and the
select observes exactly one signal, the first arrival. -/
theorem c8_signal_discipline (lip : Option String) (rp : Nat)
    (chunks : List (List Nat)) (term : Option GoErr) (ccap : Option Nat)
    (rt : Except GoErr Response) (pcap : Option Nat) (order : List Sig)
    (h : Shuffle3 (copyClient lip rp chunks term ccap).signals
      (copyProxy rt pcap).signals ([] : List Sig) order) :
    (copyClient lip rp chunks term ccap).signals = [Sig.done] ∧
    (copyProxy rt pcap).signals.length = 1 ∧
    order.count Sig.done ≤ doneChanCap ∧
    order.count Sig.doneError ≤ doneErrorChanCap ∧
    ∃ s, observeFirst order = some s := by
  have hcc := copyClient_signals lip rp chunks term ccap
  have hcp := copyProxy_signals_cases rt pcap
  have hd := shuffle3_count h Sig.done
  have he := shuffle3_count h Sig.doneError
  have hlen := shuffle3_length h
  refine ⟨hcc, ?_, ?_, ?_, ?_⟩
  · rcases hcp with h2 | h2 <;> simp [h2]
  · rcases hcp with h2 | h2 <;> simp [hd, hcc, h2, doneChanCap]
  · rcases hcp with h2 | h2 <;> simp [he, hcc, h2, doneErrorChanCap]
  · have h3 : order.length = 2 := by
      rcases hcp with h2 | h2 <;> simp [hlen, hcc, h2]
    cases order with
    | nil => simp at h3
    | cons s rest2 => exact ⟨s, rfl⟩

/-- C8 witness: the discipline at a concrete session (clean 200 exchange,
both completion signals sent, client's observed first). -/
theorem c8_signal_discipline_witness :
    (copyClient none 0 [[9]] none none).signals = [Sig.done] ∧
    (copyProxy (Except.ok { statusCode := 200, bodyChunks := [], bodyTerm := none }) none).signals.length = 1 ∧
    [Sig.done, Sig.done].count Sig.done ≤ doneChanCap ∧
    [Sig.done, Sig.done].count Sig.doneError ≤ doneErrorChanCap ∧
    ∃ s, observeFirst [Sig.done, Sig.done] = some s := by
  apply c8_signal_discipline none 0 [[9]] none none
    (Except.ok { statusCode := 200, bodyChunks := [], bodyTerm := none }) none
  exact isShuffle3_sound _ _ _ _ (by decide)

/-- C9 counterexample: a 200 response delivers a 3-byte body chunk but the
client connection accepts no bytes (the write fails at once): the
upstream→client `WriteCounter` logs 3 bytes — the tee counts at read time,
before the connection write — while 0 bytes were written to the client
connection, so the logged sum does not equal the bytes actually written. -/
theorem c9_counterexample_logged_exceeds_written :
    (copyProxy (Except.ok { statusCode := 200, bodyChunks := [[1, 2, 3]], bodyTerm := none }) (some 0)).logged.sum ≠
    (copyProxy (Except.ok { statusCode := 200, bodyChunks := [[1, 2, 3]], bodyTerm := none }) (some 0)).connBytes.length := by
  decide

/-- C9 amended: per direction the logged counts sum to the bytes read
through the tee: for the client→upstream direction this equals the bytes
actually read from the client connection, always; for the upstream→client
direction it equals the bytes read from the response body, which bounds
from above the bytes actually written to the client connection, with
equality whenever every write on the client connection succeeds. -/
theorem c9_byte_accounting (lip : Option String) (rp : Nat)
    (chunks : List (List Nat)) (term : Option GoErr) (ccap : Option Nat)
    (rt : Except GoErr Response) (pcap : Option Nat) :
    (copyClient lip rp chunks term ccap).logged.sum =
      (copyClient lip rp chunks term ccap).readBytes.length ∧
    (copyProxy rt pcap).logged.sum = (copyProxy rt pcap).bodyBytesRead.length ∧
    (copyProxy rt pcap).connBytes.length ≤ (copyProxy rt pcap).logged.sum ∧
    (pcap = none → (copyProxy rt pcap).logged.sum = (copyProxy rt pcap).connBytes.length) := by
  refine ⟨copyClient_logged_sum lip rp chunks term ccap,
    copyProxy_logged_sum rt pcap, copyProxy_conn_le rt pcap, ?_⟩
  rintro rfl
  exact copyProxy_none_eq rt

/-- C9 witness: the accounting at a concrete session where the client
sends two bytes and the upstream delivers two bytes with all writes
succeeding. -/
theorem c9_byte_accounting_witness :
    (copyClient none 9 [[5, 6]] none none).logged.sum =
      (copyClient none 9 [[5, 6]] none none).readBytes.length ∧
    (copyProxy (Except.ok { statusCode := 200, bodyChunks := [[1, 2]], bodyTerm := none }) none).logged.sum =
      (copyProxy (Except.ok { statusCode := 200, bodyChunks := [[1, 2]], bodyTerm := none }) none).connBytes.length := by
  have h := c9_byte_accounting none 9 [[5, 6]] none none
    (Except.ok { statusCode := 200, bodyChunks := [[1, 2]], bodyTerm := none }) none
  exact ⟨h.1, h.2.2.2 rfl⟩

/-- C10: for every input byte slice `p` the instrumentation sink's
`Write(p)` returns `(len(p), nil)` — never an error or a short count,
whether debug logging is enabled or disabled — so attaching the
byte-count tee to a copy direction can never abort the copy or change the
bytes transferred. -/
theorem c10_write_counter_total (debug : Bool) (p : List Nat) :
    (writeCounterWrite debug p).fst = (p.length, none) := rfl
